import Mathlib

/-!
Shallow embedding of the ycg_cloud model layer (Go): recycle-bin lifecycle
predicates, quota predicates, team-member roles, permission-grant expiry,
and the spec-described engine operations that are not part of the model
layer (quota ledger, purge, recycle-bin eviction), with theorems settling
the specification claims C1-C10.

Go `time.Time` values are modelled as integers at day granularity: the only
time arithmetic in the embedded code is `AddDate(0, 0, d)` (adding `d`
calendar days), and every other use is a pure comparison (`After`/`Before`),
which is order-isomorphic to integer comparison.

Go string-typed enums (`RecycleStatus`, `teamMemberRole`, `ConfigStatus`, ...)
are modelled as `String` together with the source's named constants, so that
the zero value `""` checked by the `BeforeCreate` hooks is representable.
-/

/-- Go `time.Time`, as an integer instant (day granularity). -/
abbrev GoTime := Int

/-- Go `t.AddDate(0, 0, d)`: add `d` calendar days. -/
def GoTime.addDate (t : GoTime) (d : Int) : GoTime := t + d

/-- Go `a.After(b)`: `a` is strictly later than `b`. -/
def GoTime.after (a b : GoTime) : Bool := decide (b < a)

/-- Go `a.Before(b)`: `a` is strictly earlier than `b`. -/
def GoTime.before (a b : GoTime) : Bool := decide (a < b)

/-- Go `RecycleStatus` (src/unnamed/part_002), a string enum. -/
abbrev RecycleStatus := String

/-- Go constant `RecycleStatusDeleted`. -/
def RecycleStatusDeleted : RecycleStatus := "deleted"

/-- Go constant `RecycleStatusRestored`. -/
def RecycleStatusRestored : RecycleStatus := "restored"

/-- Go constant `RecycleStatusPermanent`. -/
def RecycleStatusPermanent : RecycleStatus := "permanent"

/-- Go struct `RecycleItem` (src/unnamed/part_002): the fields read by the
embedded methods; defaults are the Go zero values. -/
structure RecycleItem where
  DeletedAt : GoTime := 0
  RestoredAt : Option GoTime := none
  PermanentDeletedAt : Option GoTime := none
  ExpiresAt : Option GoTime := none
  Status : RecycleStatus := ""
  FileSize : Int := 0
  AutoDeleteDays : Int := 0
deriving DecidableEq

/-- Go `RecycleItem.IsDeleted`. -/
def RecycleItem.IsDeleted (ri : RecycleItem) : Bool :=
  ri.Status == RecycleStatusDeleted

/-- Go `RecycleItem.IsRestored`. -/
def RecycleItem.IsRestored (ri : RecycleItem) : Bool :=
  ri.Status == RecycleStatusRestored

/-- Go `RecycleItem.IsPermanentDeleted`. -/
def RecycleItem.IsPermanentDeleted (ri : RecycleItem) : Bool :=
  ri.Status == RecycleStatusPermanent

/-- Go `RecycleItem.IsExpired`:
`ri.ExpiresAt != nil && time.Now().After(*ri.ExpiresAt)`.
The wall clock read `time.Now()` is passed explicitly as `now`. -/
def RecycleItem.IsExpired (ri : RecycleItem) (now : GoTime) : Bool :=
  match ri.ExpiresAt with
  | none => false
  | some t => GoTime.after now t

/-- Go `RecycleItem.CanRestore`:
`ri.Status == RecycleStatusDeleted && !ri.IsExpired()`. -/
def RecycleItem.CanRestore (ri : RecycleItem) (now : GoTime) : Bool :=
  (ri.Status == RecycleStatusDeleted) && !(ri.IsExpired now)

/-- A recycle entry of status `deleted` whose expiry instant equals the
current instant `5`: the code still permits restore at that instant. -/
def restoreAtBoundaryItem : RecycleItem :=
  { Status := RecycleStatusDeleted, ExpiresAt := some 5 }

/-- C1, counterexample: the claim "restoration is permitted iff the status is
`deleted` and the current time is strictly before `expires_at`" is false:
for the entry `restoreAtBoundaryItem` at `now = 5 = expires_at`, `CanRestore`
returns `true` although `now` is not strictly before `expires_at`. -/
theorem canRestore_strict_before_cex :
    ¬ (∀ (ri : RecycleItem) (now : GoTime),
        ri.CanRestore now = true ↔
          (ri.Status = RecycleStatusDeleted ∧
            ∃ t, ri.ExpiresAt = some t ∧ now < t)) := by
  intro h
  have h5 := (h restoreAtBoundaryItem 5).mp (by decide)
  obtain ⟨-, t, ht, hlt⟩ := h5
  have ht5 : (5 : GoTime) = t := by
    simpa [restoreAtBoundaryItem] using ht
  rw [← ht5] at hlt
  exact lt_irrefl _ hlt

/-- `IsExpired` is false exactly when `expires_at` is unset or not strictly
in the past of `now`. -/
theorem isExpired_false_iff (ri : RecycleItem) (now : GoTime) :
    ri.IsExpired now = false ↔ ∀ t, ri.ExpiresAt = some t → now ≤ t := by
  cases hE : ri.ExpiresAt with
  | none => simp [RecycleItem.IsExpired, hE]
  | some t => simp [RecycleItem.IsExpired, GoTime.after, hE, not_lt]

/-- C1, amended: restoration is permitted iff the entry's status is `deleted`
and the entry is not expired, i.e. `expires_at` is unset or the current time
is at or before `expires_at` (not strictly after); an entry whose status is
`restored` or `permanent` is never restorable. -/
theorem canRestore_iff (ri : RecycleItem) (now : GoTime) :
    (ri.CanRestore now = true ↔
      (ri.Status = RecycleStatusDeleted ∧
        ∀ t, ri.ExpiresAt = some t → now ≤ t)) ∧
    ((ri.Status = RecycleStatusRestored ∨ ri.Status = RecycleStatusPermanent) →
      ri.CanRestore now = false) := by
  constructor
  · simp only [RecycleItem.CanRestore, Bool.and_eq_true, beq_iff_eq,
      Bool.not_eq_true', isExpired_false_iff]
  · intro h
    rcases h with h | h <;>
      simp [RecycleItem.CanRestore, h, RecycleStatusRestored,
        RecycleStatusPermanent, RecycleStatusDeleted]

/-- A recycle entry with status `restored`, for the C1 witness. -/
def restoredItemW : RecycleItem := { Status := RecycleStatusRestored }

/-- C1 witness: the amended theorem applied at a concrete restored entry. -/
theorem canRestore_iff_witness : restoredItemW.CanRestore 0 = false :=
  (canRestore_iff restoredItemW 0).2 (Or.inl rfl)

/-- Go `RecycleItem.BeforeCreate` (src/unnamed/part_002): defaults the status
to `deleted`, `AutoDeleteDays` to 30, and an unset `ExpiresAt` to
`time.Now().AddDate(0, 0, ri.AutoDeleteDays)`; `now` is the creation
instant read by `time.Now()`. -/
def RecycleItem.BeforeCreate (ri : RecycleItem) (now : GoTime) : RecycleItem :=
  let status := if ri.Status = "" then RecycleStatusDeleted else ri.Status
  let autoDays := if ri.AutoDeleteDays = 0 then 30 else ri.AutoDeleteDays
  let expires :=
    match ri.ExpiresAt with
    | none => some (GoTime.addDate now autoDays)
    | some t => some t
  { ri with Status := status, AutoDeleteDays := autoDays, ExpiresAt := expires }

/-- C5: `RecycleItem.BeforeCreate` defaults an unset status to `deleted` and
sets an unset `expires_at` to the creation instant plus `AutoDeleteDays` days
(30 when `AutoDeleteDays` is unset); an explicit `expires_at` is kept
unchanged. -/
theorem beforeCreate_recycleItem_defaults (ri : RecycleItem) (now : GoTime) :
    ((ri.BeforeCreate now).Status =
      if ri.Status = "" then RecycleStatusDeleted else ri.Status) ∧
    (ri.ExpiresAt = none → ri.AutoDeleteDays = 0 →
      (ri.BeforeCreate now).ExpiresAt = some (now.addDate 30)) ∧
    (ri.ExpiresAt = none → ri.AutoDeleteDays ≠ 0 →
      (ri.BeforeCreate now).ExpiresAt = some (now.addDate ri.AutoDeleteDays)) ∧
    (∀ t, ri.ExpiresAt = some t → (ri.BeforeCreate now).ExpiresAt = some t) := by
  refine ⟨rfl, ?_, ?_, ?_⟩
  · intro hE hA
    simp [RecycleItem.BeforeCreate, hE, hA]
  · intro hE hA
    simp [RecycleItem.BeforeCreate, hE, hA]
  · intro t hE
    simp [RecycleItem.BeforeCreate, hE]

/-- C5 witness: the defaults theorem applied to the zero-valued entry at
creation instant 100: status becomes `deleted` and expiry becomes day 130. -/
theorem beforeCreate_recycleItem_defaults_witness :
    (RecycleItem.BeforeCreate {} 100).Status = RecycleStatusDeleted ∧
    (RecycleItem.BeforeCreate {} 100).ExpiresAt = some 130 := by
  refine ⟨?_, ?_⟩
  · have h := (beforeCreate_recycleItem_defaults {} 100).1
    simpa using h
  · have h := (beforeCreate_recycleItem_defaults {} 100).2.1 rfl rfl
    simpa [GoTime.addDate] using h

/-- Go struct `RecycleBin` (src/unnamed/part_002): the fields read by the
embedded methods; defaults are the Go zero values of a fresh literal. -/
structure RecycleBin where
  IsEnabled : Bool := true
  AutoDeleteDays : Int := 0
  MaxStorageSize : Int := 0
  CurrentStorageSize : Int := 0
  MaxItemCount : Int := 0
  CurrentItemCount : Int := 0
  NotifyBeforeDelete : Bool := true
  NotifyDays : Int := 0
deriving DecidableEq

/-- Go `RecycleBin.BeforeCreate` (src/unnamed/part_002): defaults
`AutoDeleteDays` to 30, `MaxStorageSize` to 1 GiB, `MaxItemCount` to 1000 and
`NotifyDays` to 7 when they are zero. -/
def RecycleBin.BeforeCreate (rb : RecycleBin) : RecycleBin :=
  let autoDays := if rb.AutoDeleteDays = 0 then 30 else rb.AutoDeleteDays
  let maxStorage := if rb.MaxStorageSize = 0 then 1073741824 else rb.MaxStorageSize
  let maxItems := if rb.MaxItemCount = 0 then 1000 else rb.MaxItemCount
  let notifyDays := if rb.NotifyDays = 0 then 7 else rb.NotifyDays
  { rb with
    AutoDeleteDays := autoDays
    MaxStorageSize := maxStorage
    MaxItemCount := maxItems
    NotifyDays := notifyDays }

/-- Go `RecycleItem.GetNotifyDate` (src/unnamed/part_002):
`ri.ExpiresAt.AddDate(0, 0, -notifyDays)` when `ExpiresAt` is set,
`nil` otherwise. -/
def RecycleItem.GetNotifyDate (ri : RecycleItem) (notifyDays : Int) :
    Option GoTime :=
  match ri.ExpiresAt with
  | none => none
  | some t => some (t.addDate (-notifyDays))

/-- C6: the notification date is `expires_at` minus `notify_days` days when
`expires_at` is set, and none otherwise; `RecycleBin.BeforeCreate` defaults
`NotifyDays` to 7 when unset. -/
theorem getNotifyDate_spec (ri : RecycleItem) (nd : Int) (rb : RecycleBin) :
    (ri.ExpiresAt = none → ri.GetNotifyDate nd = none) ∧
    (∀ t, ri.ExpiresAt = some t → ri.GetNotifyDate nd = some (t - nd)) ∧
    (rb.NotifyDays = 0 → (rb.BeforeCreate).NotifyDays = 7) := by
  refine ⟨?_, ?_, ?_⟩
  · intro hE
    simp [RecycleItem.GetNotifyDate, hE]
  · intro t hE
    simp [RecycleItem.GetNotifyDate, hE, GoTime.addDate]
    ring
  · intro hN
    simp [RecycleBin.BeforeCreate, hN]

/-- C6 witness: the notification-date theorem applied to an entry expiring on
day 40 with a 7-day lead time, and to the zero-valued bin config. -/
theorem getNotifyDate_spec_witness :
    RecycleItem.GetNotifyDate { ExpiresAt := some 40 } 7 = some 33 ∧
    (RecycleBin.BeforeCreate {}).NotifyDays = 7 := by
  refine ⟨?_, ?_⟩
  · have h := (getNotifyDate_spec { ExpiresAt := some 40 } 7 {}).2.1 40 rfl
    simpa using h
  · exact (getNotifyDate_spec {} 7 {}).2.2 rfl

/-- Go constant `TeamMemberRoleOwner` (src/unnamed/part_003). -/
def TeamMemberRoleOwner : String := "owner"

/-- Go constant `TeamMemberRoleAdmin`. -/
def TeamMemberRoleAdmin : String := "admin"

/-- Go constant `TeamMemberRoleMember`. -/
def TeamMemberRoleMember : String := "member"

/-- Go constant `TeamMemberRoleViewer`. -/
def TeamMemberRoleViewer : String := "viewer"

/-- Go constant `TeamMemberStatusActive`. -/
def TeamMemberStatusActive : String := "active"

/-- Go struct `teamMember` (src/unnamed/part_003), alias `TeamMember`: the
fields read by the embedded methods. -/
structure TeamMember where
  Role : String := ""
  Status : String := ""
deriving DecidableEq

/-- Go `TeamMember.IsOwner`. -/
def TeamMember.IsOwner (tm : TeamMember) : Bool :=
  tm.Role == TeamMemberRoleOwner

/-- Go `TeamMember.IsAdmin`:
`tm.Role == TeamMemberRoleAdmin || tm.Role == TeamMemberRoleOwner`. -/
def TeamMember.IsAdmin (tm : TeamMember) : Bool :=
  tm.Role == TeamMemberRoleAdmin || tm.Role == TeamMemberRoleOwner

/-- Go `TeamMember.IsActive`. -/
def TeamMember.IsActive (tm : TeamMember) : Bool :=
  tm.Status == TeamMemberStatusActive

/-- Go `TeamMember.CanManageTeam`:
`tm.IsActive() && (tm.Role == Owner || tm.Role == Admin)`. -/
def TeamMember.CanManageTeam (tm : TeamMember) : Bool :=
  tm.IsActive && (tm.Role == TeamMemberRoleOwner || tm.Role == TeamMemberRoleAdmin)

/-- C7: a team member can manage the team iff their status is `active` and
their role is `owner` or `admin`; members with role `member` or `viewer`, or
with a non-active status, can never manage. -/
theorem canManageTeam_iff (tm : TeamMember) :
    (tm.CanManageTeam = true ↔
      (tm.Status = TeamMemberStatusActive ∧
        (tm.Role = TeamMemberRoleOwner ∨ tm.Role = TeamMemberRoleAdmin))) ∧
    ((tm.Role = TeamMemberRoleMember ∨ tm.Role = TeamMemberRoleViewer) →
      tm.CanManageTeam = false) ∧
    (tm.Status ≠ TeamMemberStatusActive → tm.CanManageTeam = false) := by
  refine ⟨?_, ?_, ?_⟩
  · simp [TeamMember.CanManageTeam, TeamMember.IsActive, Bool.and_eq_true,
      Bool.or_eq_true, and_congr_right_iff]
  · intro h
    rcases h with h | h <;>
      simp [TeamMember.CanManageTeam, h, TeamMemberRoleMember,
        TeamMemberRoleViewer, TeamMemberRoleOwner, TeamMemberRoleAdmin]
  · intro h
    simp [TeamMember.CanManageTeam, TeamMember.IsActive, h]

/-- C7 witness: the theorem applied to a concrete active member of role
`member`, who cannot manage the team. -/
theorem canManageTeam_iff_witness :
    TeamMember.CanManageTeam
      { Role := TeamMemberRoleMember, Status := TeamMemberStatusActive } =
      false :=
  (canManageTeam_iff
      { Role := TeamMemberRoleMember, Status := TeamMemberStatusActive }).2.1
    (Or.inl rfl)

/-- Go struct `userPermission` (src/unnamed/part_004): the fields read by the
embedded methods. -/
structure userPermission where
  Allowed : Bool := false
  GrantedAt : GoTime := 0
  ExpiresAt : Option GoTime := none
deriving DecidableEq

/-- Go struct `filePermission` (src/unnamed/part_004): the fields read by the
embedded methods. -/
structure filePermission where
  Allowed : Bool := false
  GrantedAt : GoTime := 0
  ExpiresAt : Option GoTime := none
deriving DecidableEq

/-- Go `userPermission.IsExpired`:
`up.ExpiresAt != nil && up.ExpiresAt.Before(time.Now())`. -/
def userPermission.IsExpired (up : userPermission) (now : GoTime) : Bool :=
  match up.ExpiresAt with
  | none => false
  | some t => GoTime.before t now

/-- Go `filePermission.IsExpired`:
`fp.ExpiresAt != nil && fp.ExpiresAt.Before(time.Now())`. -/
def filePermission.IsExpired (fp : filePermission) (now : GoTime) : Bool :=
  match fp.ExpiresAt with
  | none => false
  | some t => GoTime.before t now

/-- Modelled from the spec: the Permission Resolver (`Resolve`, §4.1) is not
under src/; per §3, "a grant with a past expires-at is inert (must be treated
as absent by the resolver)", so the decision a single stored grant contributes
is allow only when the grant is unexpired and its `Allowed` flag is set. -/
def resolveFromGrant (fp : filePermission) (now : GoTime) : Bool :=
  !(fp.IsExpired now) && fp.Allowed

/-- C4: a grant (userPermission or filePermission) is expired iff its
`expires_at` is set and lies strictly before the current time; a grant with no
`expires_at` never expires; and the resolver treats a past-expiry grant as
absent, returning allow = false from it although the grant record still
exists. -/
theorem grant_expiry_spec (up : userPermission) (fp : filePermission)
    (now : GoTime) :
    (up.IsExpired now = true ↔ ∃ t, up.ExpiresAt = some t ∧ t < now) ∧
    (up.ExpiresAt = none → up.IsExpired now = false) ∧
    (fp.IsExpired now = true ↔ ∃ t, fp.ExpiresAt = some t ∧ t < now) ∧
    (fp.ExpiresAt = none → fp.IsExpired now = false) ∧
    (fp.IsExpired now = true → resolveFromGrant fp now = false) := by
  refine ⟨?_, ?_, ?_, ?_, ?_⟩
  · cases hE : up.ExpiresAt with
    | none => simp [userPermission.IsExpired, hE]
    | some t => simp [userPermission.IsExpired, GoTime.before, hE]
  · intro hE
    simp [userPermission.IsExpired, hE]
  · cases hE : fp.ExpiresAt with
    | none => simp [filePermission.IsExpired, hE]
    | some t => simp [filePermission.IsExpired, GoTime.before, hE]
  · intro hE
    simp [filePermission.IsExpired, hE]
  · intro h
    simp [resolveFromGrant, h]

/-- A file-permission grant, `Allowed`, that expired at day 9 (yesterday
relative to `now = 10`), for the C4 witness. -/
def expiredShareGrant : filePermission :=
  { Allowed := true, GrantedAt := 0, ExpiresAt := some 9 }

/-- C4 witness: the theorem applied to `expiredShareGrant` at `now = 10`: the
grant is expired and resolves to allow = false despite `Allowed := true`. -/
theorem grant_expiry_spec_witness :
    resolveFromGrant expiredShareGrant 10 = false :=
  (grant_expiry_spec {} expiredShareGrant 10).2.2.2.2 (by decide)

/-- Go constant `ConfigStatusActive` (src/internal/model/config.go). -/
def ConfigStatusActive : String := "active"

/-- Go struct `storageConfig` (src/internal/model/config.go): the fields read
by the embedded methods; defaults are the Go zero values. -/
structure storageConfig where
  MaxFileSize : Int := 0
  TotalFiles : Int := 0
  TotalSize : Int := 0
  UsedSize : Int := 0
  QuotaSize : Int := 0
  Status : String := ""
  DefaultFlag : Bool := false
  EnabledFlag : Bool := false
deriving DecidableEq

/-- Go `storageConfig.IsActive`. -/
def storageConfig.IsActive (stc : storageConfig) : Bool :=
  stc.Status == ConfigStatusActive

/-- Go `storageConfig.IsEnabled`. -/
def storageConfig.IsEnabled (stc : storageConfig) : Bool :=
  stc.EnabledFlag

/-- Go `storageConfig.IsQuotaExceeded`:
`stc.QuotaSize > 0 && stc.UsedSize >= stc.QuotaSize`. -/
def storageConfig.IsQuotaExceeded (stc : storageConfig) : Bool :=
  decide (0 < stc.QuotaSize) && decide (stc.QuotaSize ≤ stc.UsedSize)

/-- Go `storageConfig.GetUsagePercent`: returns 0 when `QuotaSize` is 0, else
`float64(UsedSize) / float64(QuotaSize) * 100`; the float64 arithmetic is
modelled exactly over the rationals. -/
def storageConfig.GetUsagePercent (stc : storageConfig) : ℚ :=
  if stc.QuotaSize = 0 then 0
  else (stc.UsedSize : ℚ) / (stc.QuotaSize : ℚ) * 100

/-- Go `storageConfig.CanUpload`: denies when disabled or inactive, when
`fileSize > MaxFileSize`, or when a positive quota would be overrun
(`QuotaSize > 0 && UsedSize + fileSize > QuotaSize`); otherwise allows. -/
def storageConfig.CanUpload (stc : storageConfig) (fileSize : Int) : Bool :=
  if !stc.IsEnabled || !stc.IsActive then false
  else if decide (stc.MaxFileSize < fileSize) then false
  else if decide (0 < stc.QuotaSize) &&
      decide (stc.QuotaSize < stc.UsedSize + fileSize) then false
  else true

/-- C2: for an enabled, active storage configuration with positive quota and
a requested size within the per-file maximum, the upload reservation is
refused exactly when `UsedSize + fileSize > QuotaSize`; in particular a
request reaching exactly `QuotaSize` is accepted. -/
theorem canUpload_quota_boundary (stc : storageConfig) (fileSize : Int)
    (hEn : stc.IsEnabled = true) (hAct : stc.IsActive = true)
    (hQ : 0 < stc.QuotaSize) (hMax : fileSize ≤ stc.MaxFileSize) :
    (stc.CanUpload fileSize = false ↔
      stc.QuotaSize < stc.UsedSize + fileSize) ∧
    (stc.UsedSize + fileSize = stc.QuotaSize →
      stc.CanUpload fileSize = true) := by
  have hMax' : ¬ stc.MaxFileSize < fileSize := not_lt.mpr hMax
  constructor
  · simp [storageConfig.CanUpload, hEn, hAct, hMax', hQ]
  · intro hEq
    simp [storageConfig.CanUpload, hEn, hAct, hMax', hQ, hEq]

/-- A concrete enabled, active storage configuration: quota 100 bytes, 60
used, per-file maximum 50. -/
def storageConfigW : storageConfig :=
  { MaxFileSize := 50, UsedSize := 60, QuotaSize := 100,
    Status := ConfigStatusActive, EnabledFlag := true }

/-- C2 witness: on `storageConfigW`, a 40-byte upload (reaching the quota
exactly) is accepted, and a 41-byte upload is refused. -/
theorem canUpload_quota_boundary_witness :
    storageConfigW.CanUpload 40 = true ∧
    storageConfigW.CanUpload 41 = false := by
  constructor
  · exact (canUpload_quota_boundary storageConfigW 40 (by decide) (by decide)
      (by decide) (by decide)).2 (by decide)
  · exact (canUpload_quota_boundary storageConfigW 41 (by decide) (by decide)
      (by decide) (by decide)).1.mpr (by decide)

/-- Go `RecycleBin.GetStorageUsagePercent` (src/unnamed/part_002): returns 0
when `MaxStorageSize` is 0, else
`float64(CurrentStorageSize) / float64(MaxStorageSize) * 100`; the float64
arithmetic is modelled exactly over the rationals. -/
def RecycleBin.GetStorageUsagePercent (rb : RecycleBin) : ℚ :=
  if rb.MaxStorageSize = 0 then 0
  else (rb.CurrentStorageSize : ℚ) / (rb.MaxStorageSize : ℚ) * 100

/-- Go `RecycleBin.GetItemUsagePercent` (src/unnamed/part_002): returns 0
when `MaxItemCount` is 0, else
`float64(CurrentItemCount) / float64(MaxItemCount) * 100`. -/
def RecycleBin.GetItemUsagePercent (rb : RecycleBin) : ℚ :=
  if rb.MaxItemCount = 0 then 0
  else (rb.CurrentItemCount : ℚ) / (rb.MaxItemCount : ℚ) * 100

/-- C10: the usage-percentage queries are total: each returns 0 when its
configured maximum is 0 (no division by zero), and `current / maximum * 100`
otherwise. -/
theorem usage_percent_total (rb : RecycleBin) (stc : storageConfig) :
    (rb.MaxStorageSize = 0 → rb.GetStorageUsagePercent = 0) ∧
    (rb.MaxStorageSize ≠ 0 → rb.GetStorageUsagePercent =
      (rb.CurrentStorageSize : ℚ) / (rb.MaxStorageSize : ℚ) * 100) ∧
    (rb.MaxItemCount = 0 → rb.GetItemUsagePercent = 0) ∧
    (rb.MaxItemCount ≠ 0 → rb.GetItemUsagePercent =
      (rb.CurrentItemCount : ℚ) / (rb.MaxItemCount : ℚ) * 100) ∧
    (stc.QuotaSize = 0 → stc.GetUsagePercent = 0) ∧
    (stc.QuotaSize ≠ 0 → stc.GetUsagePercent =
      (stc.UsedSize : ℚ) / (stc.QuotaSize : ℚ) * 100) := by
  refine ⟨?_, ?_, ?_, ?_, ?_, ?_⟩ <;> intro h <;>
    simp [RecycleBin.GetStorageUsagePercent, RecycleBin.GetItemUsagePercent,
      storageConfig.GetUsagePercent, h]

/-- A recycle bin with zero max storage but a nonzero item maximum, for the
C10 witness. -/
def percentBinW : RecycleBin :=
  { MaxStorageSize := 0, CurrentStorageSize := 7,
    MaxItemCount := 4, CurrentItemCount := 1 }

/-- C10 witness: on `percentBinW`, the storage percentage is 0 (guarded
division) and the item percentage is 1/4 of 100. -/
theorem usage_percent_total_witness :
    percentBinW.GetStorageUsagePercent = 0 ∧
    percentBinW.GetItemUsagePercent = ((1 : Int) : ℚ) / ((4 : Int) : ℚ) * 100 := by
  constructor
  · exact (usage_percent_total percentBinW {}).1 rfl
  · exact (usage_percent_total percentBinW {}).2.2.2.1 (by decide)

/-- Go struct `User` (src/internal/model/user.go): the quota fields read by
the embedded methods. -/
structure User where
  Status : String := ""
  UserType : String := ""
  StorageQuota : Int := 0
  UsedStorage : Int := 0
deriving DecidableEq

/-- Go `User.IsStorageExceeded`: `u.UsedStorage >= u.StorageQuota`. -/
def User.IsStorageExceeded (u : User) : Bool :=
  decide (u.StorageQuota ≤ u.UsedStorage)

/-- Go `User.GetAvailableStorage`: `u.StorageQuota - u.UsedStorage`. -/
def User.GetAvailableStorage (u : User) : Int :=
  u.StorageQuota - u.UsedStorage

/-- A Quota Ledger operation (spec §4.2). -/
inductive LedgerOp where
  | reserve (delta : Int)
  | release (delta : Int)
deriving DecidableEq

/-- Modelled from the spec: the Quota Ledger (`Reserve`/`Release`, §4.2) is
not under src/. `Reserve` fails with `QuotaExceeded`, leaving the state
unchanged, when `used + delta > total`; `Release` is the compensating action
for a prior `Reserve` of the same delta; and the Ledger enforces the §3
invariant `0 ≤ quota_used ≤ quota_total`, so an operation that would breach
non-negativity is likewise refused with the state unchanged. Only these
operations mutate `UsedStorage`, never direct field assignment. -/
def User.applyLedgerOp (u : User) : LedgerOp → User
  | .reserve d =>
      if 0 ≤ d ∧ u.UsedStorage + d ≤ u.StorageQuota then
        { u with UsedStorage := u.UsedStorage + d }
      else u
  | .release d =>
      if 0 ≤ d ∧ d ≤ u.UsedStorage then
        { u with UsedStorage := u.UsedStorage - d }
      else u

/-- A sequence of Quota Ledger operations applied in order. -/
def User.applyLedgerOps (u : User) (ops : List LedgerOp) : User :=
  ops.foldl User.applyLedgerOp u

/-- One ledger step preserves `0 ≤ quota_used ≤ quota_total` and never
changes the quota total. -/
theorem applyLedgerOp_invariant (u : User) (op : LedgerOp)
    (h0 : 0 ≤ u.UsedStorage) (h1 : u.UsedStorage ≤ u.StorageQuota) :
    0 ≤ (u.applyLedgerOp op).UsedStorage ∧
    (u.applyLedgerOp op).UsedStorage ≤ (u.applyLedgerOp op).StorageQuota ∧
    (u.applyLedgerOp op).StorageQuota = u.StorageQuota := by
  cases op with
  | reserve d =>
      by_cases h : 0 ≤ d ∧ u.UsedStorage + d ≤ u.StorageQuota <;>
        simp [User.applyLedgerOp, h] <;> omega
  | release d =>
      by_cases h : 0 ≤ d ∧ d ≤ u.UsedStorage <;>
        simp [User.applyLedgerOp, h] <;> omega

/-- C3: from any user state with `0 ≤ quota_used ≤ quota_total`, every state
reachable through Quota Ledger operations still satisfies
`0 ≤ quota_used ≤ quota_total` (the quota total being untouched), and
`GetAvailableStorage` never returns a negative number. -/
theorem ledger_quota_invariant (u : User) (ops : List LedgerOp)
    (h0 : 0 ≤ u.UsedStorage) (h1 : u.UsedStorage ≤ u.StorageQuota) :
    0 ≤ (u.applyLedgerOps ops).UsedStorage ∧
    (u.applyLedgerOps ops).UsedStorage ≤ (u.applyLedgerOps ops).StorageQuota ∧
    (u.applyLedgerOps ops).StorageQuota = u.StorageQuota ∧
    0 ≤ (u.applyLedgerOps ops).GetAvailableStorage := by
  induction ops generalizing u with
  | nil =>
      refine ⟨h0, h1, rfl, ?_⟩
      simp [User.applyLedgerOps, User.GetAvailableStorage]
      omega
  | cons op rest ih =>
      obtain ⟨s0, s1, s2⟩ := applyLedgerOp_invariant u op h0 h1
      have hrec := ih (u.applyLedgerOp op) s0 s1
      refine ⟨hrec.1, hrec.2.1, ?_, hrec.2.2.2⟩
      calc (u.applyLedgerOps (op :: rest)).StorageQuota
          = ((u.applyLedgerOp op).applyLedgerOps rest).StorageQuota := rfl
        _ = (u.applyLedgerOp op).StorageQuota := hrec.2.2.1
        _ = u.StorageQuota := s2

/-- A user with quota 100 and 0 used, for the C3 witness (spec §8 scenario). -/
def ledgerUserW : User := { StorageQuota := 100, UsedStorage := 0 }

/-- C3 witness: the invariant theorem applied to `ledgerUserW` over the spec's
§8 scenario (reserve 80, release 80, reserve 80): the available storage
stays non-negative. -/
theorem ledger_quota_invariant_witness :
    0 ≤ (ledgerUserW.applyLedgerOps
      [LedgerOp.reserve 80, LedgerOp.release 80, LedgerOp.reserve 80]).GetAvailableStorage :=
  (ledger_quota_invariant ledgerUserW
    [LedgerOp.reserve 80, LedgerOp.release 80, LedgerOp.reserve 80]
    (by decide) (by decide)).2.2.2

/-- The engine state touched by `Purge` (spec §4.3): the recycle entry, the
resource's lifecycle status, and the owner's quota_used counter. -/
structure EngineState where
  item : RecycleItem
  resourceStatus : String := "recycled"
  quotaUsed : Int := 0
deriving DecidableEq

/-- Modelled from the spec: `Purge` (§4.3) is not under src/. Purging an
entry already recognised by `RecycleItem.IsPermanentDeleted` is a no-op
returning success; otherwise the resource becomes `purged`, the Quota Ledger
is released by the entry's file size, and the entry's status becomes
`permanent` with `permanent_deleted_at` set. -/
def purgeEntry (now : GoTime) (s : EngineState) : EngineState :=
  if s.item.IsPermanentDeleted then s
  else
    { item := { s.item with
        Status := RecycleStatusPermanent
        PermanentDeletedAt := some now }
      resourceStatus := "purged"
      quotaUsed := s.quotaUsed - s.item.FileSize }

/-- C9: purging an entry whose status is already `permanent` leaves the whole
state unchanged (success, not an error), and purge composed with itself
equals a single purge. -/
theorem purge_idempotent (now : GoTime) (s : EngineState) :
    (s.item.IsPermanentDeleted = true → purgeEntry now s = s) ∧
    purgeEntry now (purgeEntry now s) = purgeEntry now s := by
  constructor
  · intro h
    simp [purgeEntry, h]
  · by_cases h : s.item.IsPermanentDeleted = true
    · simp [purgeEntry, h]
    · have h' : ¬ s.item.Status = RecycleStatusPermanent := by
        simpa [RecycleItem.IsPermanentDeleted] using h
      simp [purgeEntry, RecycleItem.IsPermanentDeleted, h']

/-- A state whose entry is already permanently deleted, for the C9 witness. -/
def purgedStateW : EngineState :=
  { item := { Status := RecycleStatusPermanent, FileSize := 80 }
    resourceStatus := "purged"
    quotaUsed := 100 }

/-- C9 witness: purging `purgedStateW` again changes nothing. -/
theorem purge_idempotent_witness : purgeEntry 0 purgedStateW = purgedStateW :=
  (purge_idempotent 0 purgedStateW).1 (by decide)

/-- Go `RecycleBin.IsStorageFull` (src/unnamed/part_002):
`rb.CurrentStorageSize >= rb.MaxStorageSize`. -/
def RecycleBin.IsStorageFull (rb : RecycleBin) : Bool :=
  decide (rb.MaxStorageSize ≤ rb.CurrentStorageSize)

/-- Go `RecycleBin.IsItemCountFull` (src/unnamed/part_002):
`rb.CurrentItemCount >= rb.MaxItemCount`. -/
def RecycleBin.IsItemCountFull (rb : RecycleBin) : Bool :=
  decide (rb.MaxItemCount ≤ rb.CurrentItemCount)

/-- A `deleted`-status entry currently occupying the bin (spec §4.3 capacity
pressure): its deletion instant and its file size in bytes. -/
structure BinEntry where
  DeletedAt : GoTime
  FileSize : Nat
deriving DecidableEq

/-- The bin's CurrentItemCount for the deleted entries `l`. -/
def binItemCount (l : List BinEntry) : Nat := l.length

/-- The bin's CurrentStorageSize for the deleted entries `l`. -/
def binStorageSize (l : List BinEntry) : Nat := (l.map BinEntry.FileSize).sum

/-- The `RecycleBin` record describing a bin that holds the deleted entries
`l` under capacity configuration `(maxItems, maxSize)`. -/
def binState (maxItems maxSize : Nat) (l : List BinEntry) : RecycleBin :=
  { MaxItemCount := (maxItems : Int)
    CurrentItemCount := (binItemCount l : Int)
    MaxStorageSize := (maxSize : Int)
    CurrentStorageSize := (binStorageSize l : Int) }

/-- Modelled from the spec: the bin is still above the eviction target of
90% of either capacity. -/
def overEvictTarget (maxItems maxSize : Nat) (l : List BinEntry) : Bool :=
  decide (90 * maxItems / 100 < binItemCount l) ||
    decide (90 * maxSize / 100 < binStorageSize l)

/-- Modelled from the spec (§4.3): the FIFO eviction loop. `l` is ordered
oldest first (ascending `deleted_at`); while the bin is above the 90% target
the front (oldest) entry is force-purged. The fuel is the list length, which
suffices because each step removes one entry. -/
def evictLoop (maxItems maxSize : Nat) : Nat → List BinEntry → List BinEntry
  | 0, l => l
  | fuel + 1, l =>
      if overEvictTarget maxItems maxSize l then
        evictLoop maxItems maxSize fuel l.tail
      else l

/-- Modelled from the spec (§4.3 capacity pressure): the Delete path of the
Recycle Lifecycle engine is not under src/. Before a new Delete is accepted,
if the bin is at capacity per the code predicates `RecycleBin.IsStorageFull`
or `RecycleBin.IsItemCountFull`, the oldest deleted entries are force-purged
down to 90% of capacity; the new entry is then always appended — the Delete
itself is never refused for bin pressure. -/
def acceptDelete (maxItems maxSize : Nat) (l : List BinEntry) (e : BinEntry) :
    List BinEntry :=
  let evicted :=
    if (binState maxItems maxSize l).IsStorageFull ||
        (binState maxItems maxSize l).IsItemCountFull then
      evictLoop maxItems maxSize l.length l
    else l
  evicted ++ [e]

/-- The eviction loop only ever removes entries from the front: its result is
a suffix of the input (so with the input ordered oldest first, precisely the
oldest entries are purged). -/
theorem evictLoop_suffix (maxItems maxSize : Nat) :
    ∀ (fuel : Nat) (l : List BinEntry),
      (evictLoop maxItems maxSize fuel l).IsSuffix l
  | 0, _ => List.suffix_rfl
  | fuel + 1, l => by
      rw [evictLoop]
      split
      · exact (evictLoop_suffix maxItems maxSize fuel l.tail).trans
          (List.tail_suffix l)
      · exact List.suffix_rfl

/-- With fuel equal to the list length the eviction loop reaches the 90%
target: the empty bin is always within target, and each iteration removes
one entry. -/
theorem evictLoop_reaches_target (maxItems maxSize : Nat) :
    ∀ l : List BinEntry,
      overEvictTarget maxItems maxSize
        (evictLoop maxItems maxSize l.length l) = false
  | [] => by
      simp [evictLoop, overEvictTarget, binItemCount, binStorageSize]
  | h :: t => by
      rw [List.length_cons, evictLoop]
      split
      · simpa [List.tail_cons] using
          evictLoop_reaches_target maxItems maxSize t
      · rename_i hov
        exact Bool.eq_false_iff.mpr hov

/-- Reading the two capacity bounds out of a within-target bin. -/
theorem not_over_bounds (maxItems maxSize : Nat) (l : List BinEntry)
    (h : overEvictTarget maxItems maxSize l = false) :
    binItemCount l ≤ 90 * maxItems / 100 ∧
    binStorageSize l ≤ 90 * maxSize / 100 := by
  simpa [overEvictTarget, not_lt] using h

/-- Appending the newly deleted entry adds one to the item count. -/
theorem binItemCount_append_single (l : List BinEntry) (e : BinEntry) :
    binItemCount (l ++ [e]) = binItemCount l + 1 := by
  simp [binItemCount]

/-- Appending the newly deleted entry adds its size to the storage size. -/
theorem binStorageSize_append_single (l : List BinEntry) (e : BinEntry) :
    binStorageSize (l ++ [e]) = binStorageSize l + e.FileSize := by
  simp [binStorageSize]

/-- C8, amended: a Delete is always accepted — when the bin is at capacity
(per `IsStorageFull`/`IsItemCountFull`) the oldest deleted entries are first
force-purged, FIFO, down to 90% of capacity (the kept entries are a suffix of
the oldest-first bin). After any accepted Delete the item count never exceeds
`max_item_count` (for positive maxima), and the storage size can exceed
`max_storage_size` only by less than the new entry's own size: when the
Delete triggered eviction the storage size is at most 90% of
`max_storage_size` plus the new entry's size, and when it did not, the bin
was below `max_storage_size` and the new entry's size is added to it. -/
theorem acceptDelete_capacity (maxItems maxSize : Nat) (l : List BinEntry)
    (e : BinEntry) (hmi : 1 ≤ maxItems) (hms : 1 ≤ maxSize) :
    binItemCount (acceptDelete maxItems maxSize l e) ≤ maxItems ∧
    binStorageSize (acceptDelete maxItems maxSize l e) < maxSize + e.FileSize ∧
    (((binState maxItems maxSize l).IsStorageFull ||
        (binState maxItems maxSize l).IsItemCountFull) = true →
      binStorageSize (acceptDelete maxItems maxSize l e) ≤
        90 * maxSize / 100 + e.FileSize) ∧
    (((binState maxItems maxSize l).IsStorageFull ||
        (binState maxItems maxSize l).IsItemCountFull) = false →
      binStorageSize l < maxSize ∧
      acceptDelete maxItems maxSize l e = l ++ [e]) ∧
    (∃ kept, acceptDelete maxItems maxSize l e = kept ++ [e] ∧
      kept.IsSuffix l) := by
  by_cases htrig : ((binState maxItems maxSize l).IsStorageFull ||
      (binState maxItems maxSize l).IsItemCountFull) = true
  · have hnot := evictLoop_reaches_target maxItems maxSize l
    obtain ⟨hc, hs⟩ := not_over_bounds _ _ _ hnot
    have hAD : acceptDelete maxItems maxSize l e =
        evictLoop maxItems maxSize l.length l ++ [e] := by
      simp [acceptDelete, htrig]
    refine ⟨?_, ?_, ?_, ?_, ?_⟩
    · rw [hAD, binItemCount_append_single]
      have hlt : 90 * maxItems / 100 < maxItems := by omega
      omega
    · rw [hAD, binStorageSize_append_single]
      have hlt : 90 * maxSize / 100 < maxSize := by omega
      omega
    · intro _
      rw [hAD, binStorageSize_append_single]
      omega
    · intro hf
      rw [htrig] at hf
      cases hf
    · exact ⟨_, hAD, evictLoop_suffix _ _ _ _⟩
  · have hfalse : ((binState maxItems maxSize l).IsStorageFull ||
        (binState maxItems maxSize l).IsItemCountFull) = false :=
      Bool.eq_false_iff.mpr htrig
    have hAD : acceptDelete maxItems maxSize l e = l ++ [e] := by
      simp [acceptDelete, hfalse]
    have hcountFull : (binState maxItems maxSize l).IsItemCountFull = false :=
      (Bool.or_eq_false_iff.mp hfalse).2
    have hcount : binItemCount l < maxItems := by
      have h2 : ¬ ((maxItems : Int) ≤ (binItemCount l : Int)) := by
        simpa [RecycleBin.IsItemCountFull, binState] using hcountFull
      exact_mod_cast not_le.mp h2
    have hstorageFull : (binState maxItems maxSize l).IsStorageFull = false :=
      (Bool.or_eq_false_iff.mp hfalse).1
    have hsize : binStorageSize l < maxSize := by
      have h2 : ¬ ((maxSize : Int) ≤ (binStorageSize l : Int)) := by
        simpa [RecycleBin.IsStorageFull, binState] using hstorageFull
      exact_mod_cast not_le.mp h2
    refine ⟨?_, ?_, ?_, ?_, ?_⟩
    · rw [hAD, binItemCount_append_single]
      omega
    · rw [hAD, binStorageSize_append_single]
      omega
    · intro hf
      rw [hfalse] at hf
      cases hf
    · intro _
      exact ⟨hsize, hAD⟩
    · exact ⟨l, hAD, List.suffix_rfl⟩

/-- C8, counterexample: the first deletion of a 200-byte file into an empty
bin with `max_storage_size = 100` is accepted (deletes never hard-fail for
bin pressure) and leaves the bin's storage size at 200, strictly above its
configured maximum — refuting "the bin's current item count and storage size
never exceed their configured maxima after any accepted operation". -/
theorem acceptDelete_capacity_cex :
    (100 : Nat) <
      binStorageSize (acceptDelete 1000 100 [] { DeletedAt := 0, FileSize := 200 }) := by
  decide

/-- An at-capacity two-entry bin, oldest first, for the C8 witness. -/
def fifoBinW : List BinEntry :=
  [{ DeletedAt := 1, FileSize := 50 }, { DeletedAt := 2, FileSize := 30 }]

/-- C8 witness: the amended theorem applied to `fifoBinW` (at its
`max_item_count` of 2): after the accepted Delete the item count is within
the maximum, and the storage size exceeds the maximum by less than the new
entry's size. -/
theorem acceptDelete_capacity_witness :
    binItemCount (acceptDelete 2 100 fifoBinW { DeletedAt := 3, FileSize := 10 }) ≤ 2 ∧
    binStorageSize (acceptDelete 2 100 fifoBinW { DeletedAt := 3, FileSize := 10 }) <
      100 + 10 := by
  have h := acceptDelete_capacity 2 100 fifoBinW { DeletedAt := 3, FileSize := 10 }
    (by decide) (by decide)
  exact ⟨h.1, h.2.1⟩
